import Mathlib

/-! Path resolution core of go-ipfs (`core/pathresolver.go`).

A shallow embedding of `Resolve` and `ResolveToCid` together with the pieces of
the Go standard library and of package `path` that they use.

* The collaborators (`namesys.NameSystem`, `path.Resolver`, `cid.Decode`,
  `node.Node.ResolveLink`) are functions over an arbitrary collaborator state
  `σ`; every invocation threads that state and is appended to a call record, so
  that "is invoked once / is never invoked" are statements about that record.
* The `context.Context` argument is only forwarded to the collaborators and is
  left out.
-/

namespace GoIpfs

/-! ## Go standard library -/

/-- Go `strings.HasPrefix(s, prefix)`. -/
def HasPrefix (s pre : String) : Bool :=
  pre.data.isPrefixOf s.data

/-- Go `strings.Join(elems, sep)`. -/
def Join : List String → String → String
  | [], _ => ""
  | [a], _ => a
  | a :: b :: rest, sep => a ++ sep ++ Join (b :: rest) sep

/-! ## Errors -/

/-- The Go `error` values that occur: the sentinel of `pathresolver.go`
(`ErrNoNamesys`), the sentinels of package `path` and of the link lookup under
the names the specification gives them, the run-time panic of an out-of-range
index, and any other error a collaborator may report. -/
inductive Error where
  | ErrNoNamesys
  | ErrNoComponents
  | ErrInvalidPath
  | ErrNoLink
  | indexOutOfRange
  | other (msg : String)
deriving DecidableEq, Repr

deriving instance DecidableEq for Except

/-! ## Package `path` -/

/-- Modelled from the spec: type `Path` of package `path`
(`github.com/ipfs/go-ipfs/path`), whose source is not part of `src/`. Section 3
of the specification: a path is an ordered sequence of string segments,
segment 0 naming the namespace. Segments are not forced to be non-empty, so
that malformed paths such as `/ipns/` (empty key) are values of the type. -/
structure Path where
  segs : List String
deriving DecidableEq, Repr

/-- Modelled from the spec: `Path.Segments` of package `path` (not under
`src/`): the ordered sequence of segments. -/
def Path.Segments (p : Path) : List String :=
  p.segs

/-- Modelled from the spec: `Path.IsJustAKey` of package `path` (not under
`src/`): true iff the path has two segments and the first is the
content-namespace marker `ipfs`. -/
def Path.IsJustAKey (p : Path) : Bool :=
  p.Segments.length == 2 && p.Segments.head? == some "ipfs"

/-- Modelled from the spec: `Path.PopLastSegment` of package `path` (not under
`src/`): splits off the final segment and fails with `ErrInvalidPath` on a
path of fewer than 2 segments (no pop below the namespace marker). -/
def Path.PopLastSegment (p : Path) : Except Error (Path × String) :=
  if p.Segments.length < 2 then .error .ErrInvalidPath
  else .ok (⟨p.Segments.dropLast⟩, p.Segments.getLastD "")

/-- Modelled from the spec: `FromSegments` of package `path` (not under
`src/`): builds the path of the given segments and fails with
`ErrNoComponents` when there are fewer than two of them (namespace marker plus
key). The first argument is the leading separator of the string form; every
call in `src/` passes `"/"`, which `Path.String` always writes. -/
def Path.FromSegments (_sep : String) (seg : List String) : Except Error Path :=
  if seg.length < 2 then .error .ErrNoComponents else .ok ⟨seg⟩

/-- Modelled from the spec: `Path.String` of package `path` (not under
`src/`): the string form of section 6, `/seg0/seg1/...`. -/
def Path.String (p : Path) : String :=
  "/" ++ Join p.segs "/"

/-! ## Collaborators and the call record -/

/-- The link of a graph node (`node.Link` of go-ipld-node): a named edge to a
CID with a size. -/
structure Link (Cid : Type) where
  Name : String
  Size : Nat
  Cid : Cid
deriving DecidableEq, Repr

/-- One invocation of a collaborator, with its arguments. -/
inductive Call (Node : Type) where
  | nameResolve (name : String)
  | resolvePath (p : Path)
  | cidDecode (s : String)
  | resolveLink (n : Node) (names : List String)
deriving DecidableEq, Repr

/-- The collaborator state together with the calls made so far, oldest first. -/
structure World (σ Node : Type) where
  state : σ
  calls : List (Call Node)
deriving DecidableEq, Repr

/-- The method `Resolve(ctx, name)` of a `namesys.NameSystem`. -/
abbrev NameSystem (σ : Type) := String → σ → Except Error Path × σ

/-- The method `ResolvePath(ctx, p)` of a `*path.Resolver`. -/
abbrev Resolver (σ Node : Type) := Path → σ → Except Error Node × σ

/-- The function `cid.Decode`. -/
abbrev CidDecode (Cid : Type) := String → Except Error Cid

/-- The method `ResolveLink(names)` of a `node.Node`: the link, the remainder
of unresolved names, or an error. -/
abbrev LinkResolver (σ Node Cid : Type) :=
  Node → List String → σ → Except Error (Link Cid × List String) × σ

/-- Modelled from the spec: the fields of `IpfsNode` (declared in package
`core`, not under `src/`) that `ResolveToCid` reads: the optional naming
capability and the graph resolver. -/
structure IpfsNode (σ Node : Type) where
  Namesys : Option (NameSystem σ)
  Resolver : Resolver σ Node

variable {σ Node Cid : Type}

/-- Whether a recorded call is an invocation of the naming resolver. -/
def Call.isNameResolve : Call Node → Bool
  | .nameResolve _ => true
  | _ => false

/-- The call `nsys.Resolve(ctx, name)`, recorded. -/
def callNameResolve (nsys : NameSystem σ) (name : String) (w : World σ Node) :
    Except Error Path × World σ Node :=
  ((nsys name w.state).1, ⟨(nsys name w.state).2, w.calls ++ [Call.nameResolve name]⟩)

/-- The call `r.ResolvePath(ctx, p)`, recorded. -/
def callResolvePath (r : Resolver σ Node) (p : Path) (w : World σ Node) :
    Except Error Node × World σ Node :=
  ((r p w.state).1, ⟨(r p w.state).2, w.calls ++ [Call.resolvePath p]⟩)

/-- The call `cid.Decode(s)`, recorded. -/
def callCidDecode (dec : CidDecode Cid) (s : String) (w : World σ Node) :
    Except Error Cid × World σ Node :=
  (dec s, ⟨w.state, w.calls ++ [Call.cidDecode s]⟩)

/-- The call `n.ResolveLink(names)`, recorded. -/
def callResolveLink (rl : LinkResolver σ Node Cid) (n : Node) (names : List String)
    (w : World σ Node) : Except Error (Link Cid × List String) × World σ Node :=
  ((rl n names w.state).1, ⟨(rl n names w.state).2, w.calls ++ [Call.resolveLink n names]⟩)

/-! ## `core/pathresolver.go` -/

/-- `Resolve(ctx, nsys, r, p)` of `pathresolver.go`, lines 23-58. The match on
`seg` is `len(seg) < 2 || seg[1] == ""` followed by `seg[2:]`, `seg[0]` and
`seg[1]`. -/
def Resolve (nsys : Option (NameSystem σ)) (r : Resolver σ Node) (p : Path)
    (w : World σ Node) : Except Error Node × World σ Node :=
  if HasPrefix p.String "/ipns/" then
    match nsys with
    | none => (.error .ErrNoNamesys, w)
    | some ns =>
      match p.Segments with
      | seg0 :: seg1 :: extensions =>
        if seg1 = "" then (.error .ErrNoComponents, w)
        else
          match Path.FromSegments "/" [seg0, seg1] with
          | .error err => (.error err, w)
          | .ok resolvable =>
            match callNameResolve ns resolvable.String w with
            | (.error err, w1) => (.error err, w1)
            | (.ok respath, w1) =>
              match Path.FromSegments "/" (respath.Segments ++ extensions) with
              | .error err => (.error err, w1)
              | .ok p2 => callResolvePath r p2 w1
      | _ => (.error .ErrNoComponents, w)
  else callResolvePath r p w

/-- `ResolveToCid(ctx, n, p)` of `pathresolver.go`, lines 65-92. -/
def ResolveToCid (dec : CidDecode Cid) (rl : LinkResolver σ Node Cid)
    (n : IpfsNode σ Node) (p : Path) (w : World σ Node) :
    Except Error Cid × World σ Node :=
  if p.IsJustAKey then
    match p.Segments.get? 1 with
    | none => (.error .indexOutOfRange, w)
    | some key => callCidDecode dec key w
  else
    match p.PopLastSegment with
    | .error err => (.error err, w)
    | .ok (head, tail) =>
      match Resolve n.Namesys n.Resolver head w with
      | (.error err, w1) => (.error err, w1)
      | (.ok dagnode, w1) =>
        match callResolveLink rl dagnode [tail] w1 with
        | (.error err, w2) => (.error err, w2)
        | (.ok (link, _), w2) => (.ok link.Cid, w2)


/-! ## Test doubles

Canned collaborators over a state that counts invocations: the naming resolver
adds 1, the graph resolver 10, the link lookup 100. Nodes and CIDs are
strings. -/

/-- A naming resolver that maps `/ipns/alice` to `/ipfs/Qm123`, the chained
name `/ipns/bob` to `/ipns/alice`, and knows no other name. -/
def demoNames : NameSystem Nat := fun name s =>
  if name = "/ipns/alice" then (.ok ⟨["ipfs", "Qm123"]⟩, s + 1)
  else if name = "/ipns/bob" then (.ok ⟨["ipns", "alice"]⟩, s + 1)
  else (.error (.other "name not found"), s + 1)

/-- A graph resolver whose node for a path is the path's string form. -/
def demoGraph : Resolver Nat String := fun p s =>
  (.ok p.String, s + 10)

/-- A CID decoder that accepts exactly the strings beginning with `Qm`. -/
def demoDecode : CidDecode String := fun s =>
  if HasPrefix s "Qm" then .ok s else .error (.other "invalid cid")

/-- A link lookup over a graph whose only link is `docs`, on the node of
`/ipfs/Qm123`, with target `QmDocs`; it resolves the first name and reports
the other names as the remainder, and fails with `ErrNoLink` on a name that
is no link of the node. -/
def demoLinks : LinkResolver Nat String String := fun n names s =>
  match names with
  | [] => (.error (.other "no link name given"), s + 100)
  | name :: rest =>
    if n = "/ipfs/Qm123" ∧ name = "docs" then (.ok (⟨"docs", 42, "QmDocs"⟩, rest), s + 100)
    else (.error .ErrNoLink, s + 100)

/-- A host with the naming capability `demoNames` and the graph resolver
`demoGraph`. -/
def demoHost : IpfsNode Nat String :=
  ⟨some demoNames, demoGraph⟩

/-! ## Facts about package `path` -/

theorem hasPrefix_ipns_of_segments (p : Path) (key : String) (ext : List String)
    (hseg : p.Segments = "ipns" :: key :: ext) : HasPrefix p.String "/ipns/" = true := by
  have hsegs : p.segs = "ipns" :: key :: ext := hseg
  simp [HasPrefix, Path.String, hsegs, Join, String.data_append]

theorem string_ipns_key (key : String) :
    (Path.mk ["ipns", key]).String = "/ipns/" ++ key := by
  simp only [Path.String, Join]
  rw [String.append_assoc, ← String.append_assoc]
  rfl

theorem fromSegments_pair (a b : String) :
    Path.FromSegments "/" [a, b] = .ok ⟨[a, b]⟩ := by
  simp [Path.FromSegments]

/-- The ipns branch of `Resolve` on a well-formed path, up to the naming call:
what `Resolve` does is decided by the naming resolver's answer for
`/ipns/<key>`. -/
theorem resolve_ipns_unfold (ns : NameSystem σ) (r : Resolver σ Node) (p : Path)
    (key : String) (ext : List String) (w : World σ Node)
    (hseg : p.Segments = "ipns" :: key :: ext) (hkey : key ≠ "") :
    Resolve (some ns) r p w =
      match callNameResolve ns ("/ipns/" ++ key) w with
      | (.error err, w1) => (.error err, w1)
      | (.ok respath, w1) =>
        match Path.FromSegments "/" (respath.Segments ++ ext) with
        | .error err => (.error err, w1)
        | .ok p2 => callResolvePath r p2 w1 := by
  simp only [Resolve, hasPrefix_ipns_of_segments p key ext hseg, hseg, if_true, hkey,
    if_false, fromSegments_pair, string_ipns_key]

/-! ## The claims -/

/-- C1: on a path with segments `ipns, key, e1, ..., en` (key non-empty), when
the naming resolver returns the path `R` for `/ipns/key` and
`FromSegments("/", segments(R) ++ [e1, ..., en])` builds the path `q`,
`Resolve` calls the naming resolver with `/ipns/key`, then the graph resolver
with `q`, and returns the graph resolver's result for `q`. -/
theorem resolve_ipns_appends_extensions (ns : NameSystem σ) (r : Resolver σ Node)
    (p R q : Path) (key : String) (ext : List String) (w : World σ Node) (s1 : σ)
    (hseg : p.Segments = "ipns" :: key :: ext) (hkey : key ≠ "")
    (hR : ns ("/ipns/" ++ key) w.state = (.ok R, s1))
    (hq : Path.FromSegments "/" (R.Segments ++ ext) = .ok q) :
    Resolve (some ns) r p w =
      ((r q s1).1,
        ⟨(r q s1).2, w.calls ++ [Call.nameResolve ("/ipns/" ++ key), Call.resolvePath q]⟩) := by
  rw [resolve_ipns_unfold ns r p key ext w hseg hkey]
  simp [callNameResolve, callResolvePath, hR, hq]

/-- Witness of C1: `/ipns/alice/docs/readme`, with `/ipns/alice` mapped to
`/ipfs/Qm123`, is graph-resolved as `/ipfs/Qm123/docs/readme`. -/
theorem resolve_ipns_appends_extensions_witness :
    Resolve (some demoNames) demoGraph ⟨["ipns", "alice", "docs", "readme"]⟩ ⟨0, []⟩ =
      ((demoGraph ⟨["ipfs", "Qm123", "docs", "readme"]⟩ 1).1,
        ⟨(demoGraph ⟨["ipfs", "Qm123", "docs", "readme"]⟩ 1).2,
          [] ++ [Call.nameResolve ("/ipns/" ++ "alice"),
            Call.resolvePath ⟨["ipfs", "Qm123", "docs", "readme"]⟩]⟩) :=
  resolve_ipns_appends_extensions demoNames demoGraph ⟨["ipns", "alice", "docs", "readme"]⟩
    ⟨["ipfs", "Qm123"]⟩ ⟨["ipfs", "Qm123", "docs", "readme"]⟩ "alice" ["docs", "readme"]
    ⟨0, []⟩ 1 rfl (by decide) rfl rfl

/-- C2: on a path `/ipns/<key>` without extension segments, `Resolve` calls the
naming resolver once, with the string `/ipns/<key>`, and makes no further
naming call; the only other call it may make is one to the graph resolver,
with the very path `R` the naming resolver returned; and it does make that
call, returning its result, whenever `R` has a namespace marker and a key. -/
theorem resolve_ipns_bare_delegates_unmodified (ns : NameSystem σ) (r : Resolver σ Node)
    (p : Path) (key : String) (w : World σ Node)
    (hseg : p.Segments = ["ipns", key]) (hkey : key ≠ "") :
    ((Resolve (some ns) r p w).2.calls = w.calls ++ [Call.nameResolve ("/ipns/" ++ key)] ∨
      ∃ R, (ns ("/ipns/" ++ key) w.state).1 = .ok R ∧
        (Resolve (some ns) r p w).2.calls =
          w.calls ++ [Call.nameResolve ("/ipns/" ++ key), Call.resolvePath R]) ∧
    ∀ R, (ns ("/ipns/" ++ key) w.state).1 = .ok R → 2 ≤ R.Segments.length →
      Resolve (some ns) r p w =
        ((r R (ns ("/ipns/" ++ key) w.state).2).1,
          ⟨(r R (ns ("/ipns/" ++ key) w.state).2).2,
            w.calls ++ [Call.nameResolve ("/ipns/" ++ key), Call.resolvePath R]⟩) := by
  rw [resolve_ipns_unfold ns r p key [] w hseg hkey]
  simp only [callNameResolve, List.append_nil]
  cases hres : (ns ("/ipns/" ++ key) w.state).1 with
  | error e => simp
  | ok R =>
    by_cases hlen : R.Segments.length < 2
    · have hno : ¬ 2 ≤ R.Segments.length := by omega
      simp [Path.FromSegments, hlen, hno]
    · have hR : (⟨R.Segments⟩ : Path) = R := rfl
      simp [Path.FromSegments, hlen, callResolvePath, hR]

/-- Witness of C2: `/ipns/alice`, with `/ipns/alice` mapped to `/ipfs/Qm123`. -/
theorem resolve_ipns_bare_delegates_unmodified_witness :
    Resolve (some demoNames) demoGraph ⟨["ipns", "alice"]⟩ ⟨0, []⟩ =
      (.ok "/ipfs/Qm123",
        ⟨11, [Call.nameResolve "/ipns/alice", Call.resolvePath ⟨["ipfs", "Qm123"]⟩]⟩) :=
  (resolve_ipns_bare_delegates_unmodified demoNames demoGraph ⟨["ipns", "alice"]⟩ "alice"
    ⟨0, []⟩ rfl (by decide)).2 ⟨["ipfs", "Qm123"]⟩ rfl (by decide)

/-- C3, as stated, fails on the path `/ipns`: its first segment is `ipns`, yet
without a naming resolver `Resolve` does not fail with `ErrNoNamesys` but
invokes the graph resolver on it. -/
theorem resolve_marker_only_without_namesys :
    (Path.mk ["ipns"]).Segments.head? = some "ipns" ∧
    (Resolve none demoGraph ⟨["ipns"]⟩ ⟨0, []⟩).1 ≠ .error .ErrNoNamesys ∧
    Resolve none demoGraph ⟨["ipns"]⟩ ⟨0, []⟩ =
      (.ok "/ipns", ⟨10, [Call.resolvePath ⟨["ipns"]⟩]⟩) := by
  decide

/-- C3, amended: for every path whose string form begins with `/ipns/`,
well-formed or not, `Resolve` without a naming resolver fails with
`ErrNoNamesys` and invokes no collaborator (state and call record are
unchanged). -/
theorem resolve_ipns_without_namesys (r : Resolver σ Node) (p : Path) (w : World σ Node)
    (hpre : HasPrefix p.String "/ipns/" = true) :
    Resolve none r p w = (.error .ErrNoNamesys, w) := by
  simp [Resolve, hpre]

/-- Witness of C3, amended: the path `/ipns/`, whose key is empty. -/
theorem resolve_ipns_without_namesys_witness :
    HasPrefix (Path.mk ["ipns", ""]).String "/ipns/" = true ∧
    Resolve none demoGraph ⟨["ipns", ""]⟩ ⟨0, []⟩ = (.error .ErrNoNamesys, ⟨0, []⟩) :=
  ⟨by decide, resolve_ipns_without_namesys demoGraph ⟨["ipns", ""]⟩ ⟨0, []⟩ (by decide)⟩

/-- C4, as stated, fails on the path `/ipns`: its first segment is `ipns` and
it has fewer than 2 segments, yet with a naming resolver present `Resolve`
does not fail with `ErrNoComponents` but invokes the graph resolver on it. -/
theorem resolve_marker_only_with_namesys :
    (Path.mk ["ipns"]).Segments.head? = some "ipns" ∧
    (Path.mk ["ipns"]).Segments.length < 2 ∧
    (Resolve (some demoNames) demoGraph ⟨["ipns"]⟩ ⟨0, []⟩).1 ≠ .error .ErrNoComponents ∧
    Resolve (some demoNames) demoGraph ⟨["ipns"]⟩ ⟨0, []⟩ =
      (.ok "/ipns", ⟨10, [Call.resolvePath ⟨["ipns"]⟩]⟩) := by
  decide

/-- C4, amended: for every path whose string form begins with `/ipns/` and
which has fewer than 2 segments or an empty second segment, `Resolve` with a
naming resolver present fails with `ErrNoComponents` and invokes no
collaborator (state and call record are unchanged). -/
theorem resolve_ipns_without_key (ns : NameSystem σ) (r : Resolver σ Node) (p : Path)
    (w : World σ Node) (hpre : HasPrefix p.String "/ipns/" = true)
    (hkey : p.Segments.length < 2 ∨ p.Segments.get? 1 = some "") :
    Resolve (some ns) r p w = (.error .ErrNoComponents, w) := by
  simp only [Resolve, hpre, if_true]
  match hp : p.Segments, hkey with
  | [], _ => rfl
  | [_], _ => rfl
  | _ :: b :: _, hk =>
    have hb : b = "" := by
      rcases hk with hlen | hsnd
      · simp only [List.length_cons] at hlen
        omega
      · simpa using hsnd
    simp [hb]

/-- Witness of C4, amended: the path `/ipns/`, whose key is empty. -/
theorem resolve_ipns_without_key_witness :
    HasPrefix (Path.mk ["ipns", ""]).String "/ipns/" = true ∧
    Resolve (some demoNames) demoGraph ⟨["ipns", ""]⟩ ⟨0, []⟩ =
      (.error .ErrNoComponents, ⟨0, []⟩) :=
  ⟨by decide, resolve_ipns_without_key demoNames demoGraph ⟨["ipns", ""]⟩ ⟨0, []⟩
    (by decide) (Or.inr rfl)⟩

/-- C5: for every path whose string form does not begin with `/ipns/`,
`Resolve` makes exactly one call, `r.ResolvePath` on the unchanged path, and
returns its result, whether a naming resolver is supplied or not; the naming
resolver is not invoked. -/
theorem resolve_other_namespace_passes_through (nsys : Option (NameSystem σ))
    (r : Resolver σ Node) (p : Path) (w : World σ Node)
    (hpre : HasPrefix p.String "/ipns/" = false) :
    Resolve nsys r p w =
      ((r p w.state).1, ⟨(r p w.state).2, w.calls ++ [Call.resolvePath p]⟩) := by
  simp [Resolve, hpre, callResolvePath]

/-- Witness of C5: the path `/ipfs/Qm123/docs`, with a naming resolver
supplied. -/
theorem resolve_other_namespace_passes_through_witness :
    Resolve (some demoNames) demoGraph ⟨["ipfs", "Qm123", "docs"]⟩ ⟨0, []⟩ =
      ((demoGraph ⟨["ipfs", "Qm123", "docs"]⟩ 0).1,
        ⟨(demoGraph ⟨["ipfs", "Qm123", "docs"]⟩ 0).2,
          [] ++ [Call.resolvePath ⟨["ipfs", "Qm123", "docs"]⟩]⟩) :=
  resolve_other_namespace_passes_through (some demoNames) demoGraph
    ⟨["ipfs", "Qm123", "docs"]⟩ ⟨0, []⟩ (by decide)

/-- C6: on a bare-key path (exactly the two segments `ipfs` and `key`),
`ResolveToCid` makes exactly one call, `cid.Decode(key)`, and returns its
result, the CID or the decode error; neither the naming resolver, nor the
graph resolver, nor a link lookup is invoked, and the collaborator state is
unchanged. -/
theorem resolveToCid_bare_key_decodes (dec : CidDecode Cid) (rl : LinkResolver σ Node Cid)
    (n : IpfsNode σ Node) (p : Path) (key : String) (w : World σ Node)
    (hseg : p.Segments = ["ipfs", key]) :
    ResolveToCid dec rl n p w = (dec key, ⟨w.state, w.calls ++ [Call.cidDecode key]⟩) := by
  simp [ResolveToCid, Path.IsJustAKey, hseg, callCidDecode]

/-- Witness of C6: the path `/ipfs/Qm123`. -/
theorem resolveToCid_bare_key_decodes_witness :
    ResolveToCid demoDecode demoLinks demoHost ⟨["ipfs", "Qm123"]⟩ ⟨0, []⟩ =
      (demoDecode "Qm123", ⟨0, [] ++ [Call.cidDecode "Qm123"]⟩) :=
  resolveToCid_bare_key_decodes demoDecode demoLinks demoHost ⟨["ipfs", "Qm123"]⟩ "Qm123"
    ⟨0, []⟩ rfl

/-- C7: on a path that is not a bare key and that `PopLastSegment` splits into
`(head, tail)`, if `Resolve` of `head` with the host's naming capability and
graph resolver yields the node `N`, and the lookup `N.ResolveLink([tail])`
yields the link `L` with a remainder `rem`, then `ResolveToCid` returns the
target CID of `L`, whatever `rem` is. -/
theorem resolveToCid_returns_link_target (dec : CidDecode Cid) (rl : LinkResolver σ Node Cid)
    (n : IpfsNode σ Node) (p head : Path) (tail : String) (N : Node) (L : Link Cid)
    (rem : List String) (w w1 : World σ Node) (s2 : σ)
    (hkey : p.IsJustAKey = false)
    (hpop : p.PopLastSegment = .ok (head, tail))
    (hhead : Resolve n.Namesys n.Resolver head w = (.ok N, w1))
    (hlink : rl N [tail] w1.state = (.ok (L, rem), s2)) :
    ResolveToCid dec rl n p w =
      (.ok L.Cid, ⟨s2, w1.calls ++ [Call.resolveLink N [tail]]⟩) := by
  simp [ResolveToCid, hkey, hpop, hhead, callResolveLink, hlink]

/-- Witness of C7: the path `/ipfs/Qm123/docs`, whose head `/ipfs/Qm123`
resolves to a node with the link `docs` to `QmDocs`. -/
theorem resolveToCid_returns_link_target_witness :
    ResolveToCid demoDecode demoLinks demoHost ⟨["ipfs", "Qm123", "docs"]⟩ ⟨0, []⟩ =
      (.ok "QmDocs",
        ⟨110, [Call.resolvePath ⟨["ipfs", "Qm123"]⟩] ++
          [Call.resolveLink "/ipfs/Qm123" ["docs"]]⟩) :=
  resolveToCid_returns_link_target demoDecode demoLinks demoHost ⟨["ipfs", "Qm123", "docs"]⟩
    ⟨["ipfs", "Qm123"]⟩ "docs" "/ipfs/Qm123" ⟨"docs", 42, "QmDocs"⟩ [] ⟨0, []⟩
    ⟨10, [Call.resolvePath ⟨["ipfs", "Qm123"]⟩]⟩ 110 rfl rfl rfl rfl

/-- C8: on a path that is not a bare key and that `PopLastSegment` splits into
`(head, tail)`, if `head` resolves to the node `N` and the lookup of the link
named `tail` on `N` reports that there is no such link (`ErrNoLink`), then
`ResolveToCid` fails with `ErrNoLink` and returns no CID. -/
theorem resolveToCid_missing_link (dec : CidDecode Cid) (rl : LinkResolver σ Node Cid)
    (n : IpfsNode σ Node) (p head : Path) (tail : String) (N : Node)
    (w w1 : World σ Node) (s2 : σ)
    (hkey : p.IsJustAKey = false)
    (hpop : p.PopLastSegment = .ok (head, tail))
    (hhead : Resolve n.Namesys n.Resolver head w = (.ok N, w1))
    (hlink : rl N [tail] w1.state = (.error .ErrNoLink, s2)) :
    ResolveToCid dec rl n p w =
      (.error .ErrNoLink, ⟨s2, w1.calls ++ [Call.resolveLink N [tail]]⟩) := by
  simp [ResolveToCid, hkey, hpop, hhead, callResolveLink, hlink]

/-- Witness of C8: the path `/ipfs/Qm123/photos`, whose head `/ipfs/Qm123`
resolves to a node without a link `photos`. -/
theorem resolveToCid_missing_link_witness :
    ResolveToCid demoDecode demoLinks demoHost ⟨["ipfs", "Qm123", "photos"]⟩ ⟨0, []⟩ =
      (.error .ErrNoLink,
        ⟨110, [Call.resolvePath ⟨["ipfs", "Qm123"]⟩] ++
          [Call.resolveLink "/ipfs/Qm123" ["photos"]]⟩) :=
  resolveToCid_missing_link demoDecode demoLinks demoHost ⟨["ipfs", "Qm123", "photos"]⟩
    ⟨["ipfs", "Qm123"]⟩ "photos" "/ipfs/Qm123" ⟨0, []⟩
    ⟨10, [Call.resolvePath ⟨["ipfs", "Qm123"]⟩]⟩ 110 rfl rfl rfl rfl

/-- C9: on a path with fewer than 2 segments, `ResolveToCid` fails with
`ErrInvalidPath`, the error of `PopLastSegment`, and invokes no collaborator:
no CID decode, no naming resolver, no graph resolver, no link lookup (state
and call record are unchanged). -/
theorem resolveToCid_short_path (dec : CidDecode Cid) (rl : LinkResolver σ Node Cid)
    (n : IpfsNode σ Node) (p : Path) (w : World σ Node)
    (hlen : p.Segments.length < 2) :
    ResolveToCid dec rl n p w = (.error .ErrInvalidPath, w) := by
  have hne : p.Segments.length ≠ 2 := by omega
  simp [ResolveToCid, Path.IsJustAKey, Path.PopLastSegment, hlen, hne]

/-- Witness of C9: the one-segment path `/ipfs`. -/
theorem resolveToCid_short_path_witness :
    ResolveToCid demoDecode demoLinks demoHost ⟨["ipfs"]⟩ ⟨0, []⟩ =
      (.error .ErrInvalidPath, ⟨0, []⟩) :=
  resolveToCid_short_path demoDecode demoLinks demoHost ⟨["ipfs"]⟩ ⟨0, []⟩ (by decide)

/-- C10: on a well-formed ipns path (segments `ipns, key, e1, ..., en`, key
non-empty), when the naming resolver returns a path `R` whose first segment is
again `ipns`, `Resolve` invokes the naming resolver exactly once: its calls
are the naming call for `/ipns/key` followed by calls none of which is a
naming call. Whenever `R` followed by the extensions builds a path `q`, that
path is still an ipns path and is handed as it is to the graph resolver, whose
result is returned. -/
theorem resolve_single_substitution (ns : NameSystem σ) (r : Resolver σ Node)
    (p R : Path) (key : String) (ext : List String) (w : World σ Node) (s1 : σ)
    (hseg : p.Segments = "ipns" :: key :: ext) (hkey : key ≠ "")
    (hR : ns ("/ipns/" ++ key) w.state = (.ok R, s1))
    (hipns : R.Segments.head? = some "ipns") :
    (∃ rest, (Resolve (some ns) r p w).2.calls =
        w.calls ++ Call.nameResolve ("/ipns/" ++ key) :: rest ∧
        rest.countP Call.isNameResolve = 0) ∧
    ∀ q, Path.FromSegments "/" (R.Segments ++ ext) = .ok q →
      HasPrefix q.String "/ipns/" = true ∧
      Resolve (some ns) r p w =
        ((r q s1).1,
          ⟨(r q s1).2,
            w.calls ++ [Call.nameResolve ("/ipns/" ++ key), Call.resolvePath q]⟩) := by
  rw [resolve_ipns_unfold ns r p key ext w hseg hkey]
  simp only [callNameResolve, hR]
  constructor
  · cases hq : Path.FromSegments "/" (R.Segments ++ ext) with
    | error e => exact ⟨[], by simp, rfl⟩
    | ok q => exact ⟨[Call.resolvePath q], by simp [callResolvePath], rfl⟩
  · intro q hq
    constructor
    · match hRs : R.Segments, hipns with
      | a :: t, ha =>
        have ha2 : a = "ipns" := by simpa using ha
        subst ha2
        rw [hRs] at hq
        match ht : t ++ ext with
        | [] =>
          simp [Path.FromSegments, ht] at hq
        | k :: more =>
          simp only [Path.FromSegments, List.cons_append, ht] at hq
          split at hq
          · cases hq
          · cases hq
            exact hasPrefix_ipns_of_segments _ k more rfl
    · simp [hq, callResolvePath]

/-- Witness of C10: `/ipns/bob/x`, with the chained name `/ipns/bob` mapped to
`/ipns/alice`: the graph resolver receives `/ipns/alice/x`. -/
theorem resolve_single_substitution_witness :
    HasPrefix (Path.mk ["ipns", "alice", "x"]).String "/ipns/" = true ∧
    Resolve (some demoNames) demoGraph ⟨["ipns", "bob", "x"]⟩ ⟨0, []⟩ =
      ((demoGraph ⟨["ipns", "alice", "x"]⟩ 1).1,
        ⟨(demoGraph ⟨["ipns", "alice", "x"]⟩ 1).2,
          [] ++ [Call.nameResolve ("/ipns/" ++ "bob"),
            Call.resolvePath ⟨["ipns", "alice", "x"]⟩]⟩) :=
  (resolve_single_substitution demoNames demoGraph ⟨["ipns", "bob", "x"]⟩
    ⟨["ipns", "alice"]⟩ "bob" ["x"] ⟨0, []⟩ 1 rfl (by decide) rfl rfl).2
    ⟨["ipns", "alice", "x"]⟩ rfl

/-- C11: on a well-formed ipns path (segments `ipns, key, e1, ..., en`, key
non-empty) with a naming resolver present, if the naming resolver fails with
the error `e` for `/ipns/key`, then `Resolve` fails with exactly `e`; its only
call is that naming call, so the graph resolver is never invoked. -/
theorem resolve_naming_error_propagates (ns : NameSystem σ) (r : Resolver σ Node)
    (p : Path) (key : String) (ext : List String) (e : Error) (w : World σ Node) (s1 : σ)
    (hseg : p.Segments = "ipns" :: key :: ext) (hkey : key ≠ "")
    (hfail : ns ("/ipns/" ++ key) w.state = (.error e, s1)) :
    Resolve (some ns) r p w =
      (.error e, ⟨s1, w.calls ++ [Call.nameResolve ("/ipns/" ++ key)]⟩) := by
  rw [resolve_ipns_unfold ns r p key ext w hseg hkey]
  simp [callNameResolve, hfail]

/-- Witness of C11: `/ipns/carol/x`, a name the naming resolver does not
know. -/
theorem resolve_naming_error_propagates_witness :
    Resolve (some demoNames) demoGraph ⟨["ipns", "carol", "x"]⟩ ⟨0, []⟩ =
      (.error (.other "name not found"),
        ⟨1, [] ++ [Call.nameResolve ("/ipns/" ++ "carol")]⟩) :=
  resolve_naming_error_propagates demoNames demoGraph ⟨["ipns", "carol", "x"]⟩ "carol" ["x"]
    (.other "name not found") ⟨0, []⟩ 1 rfl (by decide) rfl

/-- The string form of a path of the immutable namespace does not begin with
`/ipns/`. -/
theorem not_hasPrefix_ipns_of_ipfs (p : Path) (t : List String)
    (hseg : p.Segments = "ipfs" :: t) : HasPrefix p.String "/ipns/" = false := by
  have hsegs : p.segs = "ipfs" :: t := hseg
  cases t <;> simp [HasPrefix, Path.String, hsegs, Join, String.data_append] <;> rfl

/-- The result of `ResolveToCid` on a path that is not a bare key and whose
head is outside the ipns branch: the graph resolver's answer for the head,
then the link lookup's answer for the tail. -/
theorem resolveToCid_result_of_graph_head (dec : CidDecode Cid) (rl : LinkResolver σ Node Cid)
    (n : IpfsNode σ Node) (p head : Path) (tail : String) (w : World σ Node)
    (hkey : p.IsJustAKey = false) (hpop : p.PopLastSegment = .ok (head, tail))
    (hpre : HasPrefix head.String "/ipns/" = false) :
    (ResolveToCid dec rl n p w).1 =
      match (n.Resolver head w.state).1 with
      | .error err => .error err
      | .ok dagnode =>
        match (rl dagnode [tail] (n.Resolver head w.state).2).1 with
        | .error err => .error err
        | .ok (link, _) => .ok link.Cid := by
  simp only [ResolveToCid, hkey, hpop, Resolve, hpre, callResolvePath, callResolveLink]
  rcases hres : n.Resolver head w.state with ⟨res, s⟩
  cases res with
  | error e => simp
  | ok N =>
    simp only []
    rcases hl : rl N [tail] s with ⟨res2, s2⟩
    cases res2 with
    | error e => simp [hl]
    | ok v => simp [hl]

/-- C12: on a path of the immutable namespace (first segment `ipfs`), over a
fixed graph (the answers of the graph resolver and of the link lookup do not
depend on the collaborator state), the result of `ResolveToCid` is the same for
any two calls, whatever the collaborator states they start from, and whatever
naming resolvers, if any, the two hosts carry. -/
theorem resolveToCid_ipfs_deterministic (dec : CidDecode Cid) (rl : LinkResolver σ Node Cid)
    (r : Resolver σ Node) (nsys1 nsys2 : Option (NameSystem σ)) (p : Path)
    (w1 w2 : World σ Node)
    (hipfs : p.Segments.head? = some "ipfs")
    (hgraph : ∀ q s s2, (r q s).1 = (r q s2).1)
    (hlinks : ∀ N names s s2, (rl N names s).1 = (rl N names s2).1) :
    (ResolveToCid dec rl ⟨nsys1, r⟩ p w1).1 = (ResolveToCid dec rl ⟨nsys2, r⟩ p w2).1 := by
  cases hkey : p.IsJustAKey with
  | true =>
    simp only [ResolveToCid, hkey, if_true]
    cases p.Segments.get? 1 <;> simp [callCidDecode]
  | false =>
    cases hpop : p.PopLastSegment with
    | error e => simp [ResolveToCid, hkey, hpop]
    | ok ht =>
      obtain ⟨head, tail⟩ := ht
      have hpre : HasPrefix head.String "/ipns/" = false := by
        match hs : p.Segments, hipfs with
        | a :: t, ha =>
          have ha2 : a = "ipfs" := by simpa using ha
          subst ha2
          simp only [Path.PopLastSegment, hs] at hpop
          split at hpop
          · cases hpop
          · cases t with
            | nil => simp at *
            | cons b t2 =>
              simp only [List.dropLast_cons₂, Except.ok.injEq, Prod.mk.injEq] at hpop
              exact not_hasPrefix_ipns_of_ipfs head (List.dropLast (b :: t2)) (by rw [← hpop.1]; rfl)
      rw [resolveToCid_result_of_graph_head dec rl ⟨nsys1, r⟩ p head tail w1 hkey hpop hpre,
        resolveToCid_result_of_graph_head dec rl ⟨nsys2, r⟩ p head tail w2 hkey hpop hpre]
      simp only []
      rw [hgraph head w1.state w2.state]
      cases (r head w2.state).1 with
      | error e => rfl
      | ok N =>
        simp only []
        rw [hlinks N [tail] (r head w1.state).2 (r head w2.state).2]

/-- Witness of C12: `/ipfs/Qm123/docs`, resolved once on a host with the naming
resolver `demoNames` from state 0 and once on a host without naming resolver
from state 5. -/
theorem resolveToCid_ipfs_deterministic_witness :
    (ResolveToCid demoDecode demoLinks ⟨some demoNames, demoGraph⟩
        ⟨["ipfs", "Qm123", "docs"]⟩ ⟨0, []⟩).1 =
      (ResolveToCid demoDecode demoLinks ⟨none, demoGraph⟩
        ⟨["ipfs", "Qm123", "docs"]⟩ ⟨5, []⟩).1 ∧
    (ResolveToCid demoDecode demoLinks ⟨none, demoGraph⟩
        ⟨["ipfs", "Qm123", "docs"]⟩ ⟨5, []⟩).1 = .ok "QmDocs" :=
  ⟨resolveToCid_ipfs_deterministic demoDecode demoLinks demoGraph (some demoNames) none
    ⟨["ipfs", "Qm123", "docs"]⟩ ⟨0, []⟩ ⟨5, []⟩ rfl (fun _ _ _ => rfl)
    (fun _ names _ _ => by
      cases names with
      | nil => rfl
      | cons _ _ => simp only [demoLinks]; split <;> rfl),
    by decide⟩

/-- C13: on a path with exactly the two segments `ipns` and `key`,
`ResolveToCid` never invokes the naming resolver. The path is not a bare key
and its last segment is popped off; the head `/ipns` does not begin with
`/ipns/`, so that either no call is made at all (the split is rejected) or the
first call is the graph resolver's on the unresolved head `/ipns`; none of the
calls is a naming call, and the outcome is the one of a host without naming
capability. -/
theorem resolveToCid_ipns_key_skips_naming (dec : CidDecode Cid)
    (rl : LinkResolver σ Node Cid) (nsys : Option (NameSystem σ)) (r : Resolver σ Node)
    (p : Path) (key : String) (w : World σ Node) (hseg : p.Segments = ["ipns", key]) :
    (∃ rest, (ResolveToCid dec rl ⟨nsys, r⟩ p w).2.calls = w.calls ++ rest ∧
      rest.countP Call.isNameResolve = 0 ∧
      (rest = [] ∨ ∃ more, rest = Call.resolvePath ⟨["ipns"]⟩ :: more)) ∧
    ResolveToCid dec rl ⟨nsys, r⟩ p w = ResolveToCid dec rl ⟨none, r⟩ p w := by
  have hkey : p.IsJustAKey = false := by simp [Path.IsJustAKey, hseg]
  have hpop : p.PopLastSegment = .ok (⟨["ipns"]⟩, key) := by
    simp [Path.PopLastSegment, hseg]
  have hpre : HasPrefix (Path.mk ["ipns"]).String "/ipns/" = false := by decide
  simp only [ResolveToCid, hkey, hpop, Resolve, hpre, callResolvePath, callResolveLink,
    Bool.false_eq_true, if_false, and_true]
  rcases hres : r ⟨["ipns"]⟩ w.state with ⟨res, s⟩
  cases res with
  | error e => exact ⟨[Call.resolvePath ⟨["ipns"]⟩], by simp, rfl, Or.inr ⟨[], rfl⟩⟩
  | ok N =>
    simp only []
    rcases hl : rl N [key] s with ⟨res2, s2⟩
    cases res2 with
    | error e =>
      exact ⟨[Call.resolvePath ⟨["ipns"]⟩, Call.resolveLink N [key]], by simp [hl], rfl,
        Or.inr ⟨_, rfl⟩⟩
    | ok v =>
      exact ⟨[Call.resolvePath ⟨["ipns"]⟩, Call.resolveLink N [key]], by simp [hl], rfl,
        Or.inr ⟨_, rfl⟩⟩

/-- Witness of C13: `/ipns/alice` on a host whose naming resolver knows
`/ipns/alice`: the state shows one graph call (10) and one link lookup (100),
and no naming call (1). -/
theorem resolveToCid_ipns_key_skips_naming_witness :
    ResolveToCid demoDecode demoLinks ⟨some demoNames, demoGraph⟩ ⟨["ipns", "alice"]⟩ ⟨0, []⟩ =
        ResolveToCid demoDecode demoLinks ⟨none, demoGraph⟩ ⟨["ipns", "alice"]⟩ ⟨0, []⟩ ∧
    ResolveToCid demoDecode demoLinks ⟨some demoNames, demoGraph⟩ ⟨["ipns", "alice"]⟩ ⟨0, []⟩ =
      (.error .ErrNoLink,
        ⟨110, [Call.resolvePath ⟨["ipns"]⟩, Call.resolveLink "/ipns" ["alice"]]⟩) :=
  ⟨(resolveToCid_ipns_key_skips_naming demoDecode demoLinks (some demoNames) demoGraph
    ⟨["ipns", "alice"]⟩ "alice" ⟨0, []⟩ rfl).2, by decide⟩

end GoIpfs
